import Mathlib

/-!
Verification of the node-pairing core of the vendored reconciler
(`react-reconciler/src/ReactFiber.js`).

The JavaScript code mutates a graph of `Fiber` objects linked by the cyclic
`alternate` relation, so the embedding models the object graph explicitly:
fibers live in a heap addressed by natural-number ids, and every field that
holds an object reference in the source (`alternate`, `child`, `sibling`,
`return`, the effect-list pointers, the `dependencies` record) is an
`Option Nat` id into that heap.  Plain JavaScript values (props, state,
element types) are modelled by the inductive `JSValue`.

Feature flags are fixed to their production defaults
(`enableProfilerTimer = enableUserTimingAPI = enableFundamentalAPI =
enableScopeAPI = enableBlocksAPI = false`), matching the build the spec
describes; the `__DEV__`-only construction of the invalid-element-type
diagnostic is kept behind an explicit `dev : Bool` parameter because the
spec specifies that diagnostic.
-/

namespace ReactFiber

/-- Built-in element-type markers (`shared/ReactSymbols`): the `$$typeof`
symbols and special element-type symbols the classifier recognizes. -/
inductive ReactSymbol where
  | fragment
  | concurrentMode
  | strictMode
  | profiler
  | provider
  | context
  | suspense
  | suspenseList
  | memo
  | lazy
  | forwardRef
  | block
  | fundamental
  | scope
  deriving DecidableEq, Repr

/-- JavaScript values as far as `ReactFiber.js` inspects them.
`fnVal isReactComponent name hasDefaultProps` is a function value:
`isReactComponent` records whether `prototype && prototype.isReactComponent`
is truthy, `name` is the function's name (used by `getComponentName`) and
`hasDefaultProps` records whether `defaultProps` is defined.
`obj typeofSym keyCount children` is a plain object: its `$$typeof` field
(if any), the number of own keys (`Object.keys(o).length`), and the value of
its `children` property (`undef` when the property is absent). -/
inductive JSValue where
  | undef : JSValue
  | jsNull : JSValue
  | str : String → JSValue
  | num : Int → JSValue
  | boolV : Bool → JSValue
  | fnVal : Bool → Option String → Bool → JSValue
  | symbol : ReactSymbol → JSValue
  | obj : Option ReactSymbol → Nat → JSValue → JSValue
  deriving DecidableEq, Repr

/-- Work tags (`shared/ReactWorkTags`), the `tag` variants a fiber can have. -/
inductive WorkTag where
  | functionComponent
  | classComponent
  | indeterminateComponent
  | hostRoot
  | hostPortal
  | hostComponent
  | hostText
  | fragment
  | mode
  | contextConsumer
  | contextProvider
  | forwardRef
  | profiler
  | suspenseComponent
  | suspenseListComponent
  | memoComponent
  | simpleMemoComponent
  | lazyComponent
  | fundamentalComponent
  | scopeComponent
  | block
  | dehydratedFragment
  deriving DecidableEq, Repr

/-- `NoEffect` from `shared/ReactSideEffectTags` (no pending change). -/
def NoEffect : Nat := 0

/-- `Placement` from `shared/ReactSideEffectTags`. -/
def Placement : Nat := 2

/-- `NoWork` from `ReactFiberExpirationTime`. -/
def NoWork : Nat := 0

/-- Mode bits from `ReactTypeOfMode` (bitfield, child inherits parent bits). -/
def NoMode : Nat := 0

/-- `StrictMode` bit. -/
def StrictMode : Nat := 1

/-- `BlockingMode` bit. -/
def BlockingMode : Nat := 2

/-- `ConcurrentMode` bit. -/
def ConcurrentMode : Nat := 4

/-- `ProfileMode` bit. -/
def ProfileMode : Nat := 8

/-- Root tags from `shared/ReactRootTags`. -/
def LegacyRoot : Nat := 0

/-- `BlockingRoot` root tag. -/
def BlockingRoot : Nat := 1

/-- `ConcurrentRoot` root tag. -/
def ConcurrentRoot : Nat := 2

/-- Production default of `shared/ReactFeatureFlags.enableProfilerTimer`. -/
def enableProfilerTimer : Bool := false

/-- Production default of `shared/ReactFeatureFlags.enableUserTimingAPI`. -/
def enableUserTimingAPI : Bool := false

/-- Production default of `shared/ReactFeatureFlags.enableFundamentalAPI`. -/
def enableFundamentalAPI : Bool := false

/-- Production default of `shared/ReactFeatureFlags.enableScopeAPI`. -/
def enableScopeAPI : Bool := false

/-- Production default of `shared/ReactFeatureFlags.enableBlocksAPI`. -/
def enableBlocksAPI : Bool := false

/-- `isDevToolsPresent` (`ReactFiberDevToolsHook`): no DevTools attached. -/
def isDevToolsPresent : Bool := false

/-- The `Dependencies` record type of `ReactFiber.js`:
`{expirationTime, firstContext, responders}`.  It is heap-allocated because
`createWorkInProgress` clones it to keep the two generations independent. -/
structure Dependencies where
  expirationTime : Nat
  firstContext : JSValue
  responders : JSValue
  deriving DecidableEq, Repr

/-- The `Fiber` record.  Object-reference fields (`return`, `child`,
`sibling`, effect-list pointers, `alternate`, `dependencies`) are heap ids;
`ret` is the source's `return` field (renamed because `return` is a Lean
keyword). -/
structure Fiber where
  tag : WorkTag
  key : Option String
  elementType : JSValue
  type : JSValue
  stateNode : JSValue
  ret : Option Nat
  child : Option Nat
  sibling : Option Nat
  index : Nat
  ref : JSValue
  pendingProps : JSValue
  memoizedProps : JSValue
  updateQueue : JSValue
  memoizedState : JSValue
  dependencies : Option Nat
  mode : Nat
  effectTag : Nat
  nextEffect : Option Nat
  firstEffect : Option Nat
  lastEffect : Option Nat
  expirationTime : Nat
  childExpirationTime : Nat
  alternate : Option Nat
  deriving DecidableEq, Repr

/-- The `FiberNode` constructor (production build): every field besides the
four arguments starts at its `null`/zero initial value. -/
def mkFiberNode (tag : WorkTag) (pendingProps : JSValue) (key : Option String)
    (mode : Nat) : Fiber :=
  { tag := tag
    key := key
    elementType := JSValue.jsNull
    type := JSValue.jsNull
    stateNode := JSValue.jsNull
    ret := none
    child := none
    sibling := none
    index := 0
    ref := JSValue.jsNull
    pendingProps := pendingProps
    memoizedProps := JSValue.jsNull
    updateQueue := JSValue.jsNull
    memoizedState := JSValue.jsNull
    dependencies := none
    mode := mode
    effectTag := NoEffect
    nextEffect := none
    firstEffect := none
    lastEffect := none
    expirationTime := NoWork
    childExpirationTime := NoWork
    alternate := none }

/-- Pointwise update of a store. -/
def hupd {α : Type} (f : Nat → Option α) (i : Nat) (v : α) : Nat → Option α :=
  fun j => if j = i then some v else f j

/-- The mutable object graph: fiber objects and `Dependencies` objects,
each with a next-free-id allocation counter. -/
structure Heap where
  fibers : Nat → Option Fiber
  nextFiber : Nat
  deps : Nat → Option Dependencies
  nextDeps : Nat

/-- Overwrite the fiber object at id `i` (a JavaScript field mutation). -/
def Heap.setFiber (h : Heap) (i : Nat) (f : Fiber) : Heap :=
  { h with fibers := hupd h.fibers i f }

/-- Overwrite the `Dependencies` object at id `i`. -/
def Heap.setDeps (h : Heap) (i : Nat) (d : Dependencies) : Heap :=
  { h with deps := hupd h.deps i d }

/-- Allocation discipline: no object lives at or beyond the next-free id. -/
def Heap.WF (h : Heap) : Prop :=
  (∀ i, h.nextFiber ≤ i → h.fibers i = none) ∧
  (∀ i, h.nextDeps ≤ i → h.deps i = none)

/-- The dependencies clone of `createWorkInProgress` / `resetWorkInProgress`:
`null` stays `null`, otherwise a fresh object is allocated with the three
fields copied ("This is mutated during the render phase, so it cannot be
shared with the current fiber"). -/
def cloneDeps (h : Heap) (d : Option Nat) : Option (Option Nat × Heap) :=
  match d with
  | none => some (none, h)
  | some dId =>
    match h.deps dId with
    | none => none
    | some dob =>
      some (some h.nextDeps,
        { h with
          deps := hupd h.deps h.nextDeps
            { expirationTime := dob.expirationTime
              firstContext := dob.firstContext
              responders := dob.responders }
          nextDeps := h.nextDeps + 1 })

/-- The block of field copies `createWorkInProgress` performs on the
work-in-progress fiber regardless of branch (source lines 575–597):
`childExpirationTime`, `expirationTime`, `child`, `memoizedProps`,
`memoizedState`, `updateQueue`, the cloned `dependencies`, and the
`sibling`/`index`/`ref` values the parent's reconciliation will override. -/
def copiedFields (wip current : Fiber) (newDeps : Option Nat) : Fiber :=
  { wip with
    childExpirationTime := current.childExpirationTime
    expirationTime := current.expirationTime
    child := current.child
    memoizedProps := current.memoizedProps
    memoizedState := current.memoizedState
    updateQueue := current.updateQueue
    dependencies := newDeps
    sibling := current.sibling
    index := current.index
    ref := current.ref }

/-- The shared tail of `createWorkInProgress`: read `current` and
`workInProgress`, clone the dependencies, apply the regardless-of-branch
copies, and return the work-in-progress fiber. -/
def copyForward (h : Heap) (c w : Nat) : Option (Nat × Heap) :=
  match h.fibers c, h.fibers w with
  | some current, some wip =>
    match cloneDeps h current.dependencies with
    | none => none
    | some nd => some (w, (nd.2).setFiber w (copiedFields wip current nd.1))
  | _, _ => none

/-- The fiber built by the fresh-allocation branch of `createWorkInProgress`
before the shared copies: `createFiber(current.tag, pendingProps,
current.key, current.mode)` followed by the `elementType`/`type`/`stateNode`
reuse and `workInProgress.alternate = current`. -/
def freshWip (current : Fiber) (pendingProps : JSValue) (c : Nat) : Fiber :=
  { mkFiberNode current.tag pendingProps current.key current.mode with
    elementType := current.elementType
    type := current.type
    stateNode := current.stateNode
    alternate := some c }

/-- The in-place reuse step of `createWorkInProgress`: install the new
`pendingProps`, reset the effect tag and invalidate the effect list. -/
def reusedWip (wip : Fiber) (pendingProps : JSValue) : Fiber :=
  { wip with
    pendingProps := pendingProps
    effectTag := NoEffect
    nextEffect := none
    firstEffect := none
    lastEffect := none }

/-- `createWorkInProgress(current, pendingProps)` on the heap: if `current`
has no alternate, allocate a fresh paired fiber and link the two
symmetrically; otherwise reuse the existing alternate in place.  Either way
perform the regardless-of-branch copies (`copyForward`).  Returns the id of
the work-in-progress fiber and the updated heap; `none` only on a dangling
id (the JavaScript code would crash there). -/
def createWorkInProgress (h : Heap) (c : Nat) (pendingProps : JSValue) :
    Option (Nat × Heap) :=
  match h.fibers c with
  | none => none
  | some current =>
    match current.alternate with
    | none =>
      let h1 : Heap :=
        { h with
          fibers := hupd h.fibers h.nextFiber (freshWip current pendingProps c)
          nextFiber := h.nextFiber + 1 }
      let h2 := h1.setFiber c { current with alternate := some h.nextFiber }
      copyForward h2 c h.nextFiber
    | some wipId =>
      match h.fibers wipId with
      | none => none
      | some wip =>
        copyForward (h.setFiber wipId (reusedWip wip pendingProps)) c wipId

/-- `resetWorkInProgress(workInProgress, renderExpirationTime)`: mask the
effect tag down to any `Placement` bit, drop the effect list, then either
reset to `createFiber` initial values (no alternate) or re-copy the cloned
values `createWorkInProgress` would have produced (alternate present). -/
def resetWorkInProgress (h : Heap) (w : Nat) (renderExpirationTime : Nat) :
    Option Heap :=
  match h.fibers w with
  | none => none
  | some wip0 =>
    let wip1 :=
      { wip0 with
        effectTag := wip0.effectTag &&& Placement
        nextEffect := none
        firstEffect := none
        lastEffect := none }
    let h1 := h.setFiber w wip1
    match wip1.alternate with
    | none =>
      some (h1.setFiber w
        { wip1 with
          childExpirationTime := NoWork
          expirationTime := renderExpirationTime
          child := none
          memoizedProps := JSValue.jsNull
          memoizedState := JSValue.jsNull
          updateQueue := JSValue.jsNull
          dependencies := none })
    | some cId =>
      match h1.fibers cId with
      | none => none
      | some current =>
        match cloneDeps h1 current.dependencies with
        | none => none
        | some nd =>
          some ((nd.2).setFiber w
            { wip1 with
              childExpirationTime := current.childExpirationTime
              expirationTime := current.expirationTime
              child := current.child
              memoizedProps := current.memoizedProps
              memoizedState := current.memoizedState
              updateQueue := current.updateQueue
              dependencies := nd.1 })

/-- `createHostRootFiber(tag)`: map the root tag to the mode bits and build
a `HostRoot` fiber with `null` props and `null` key. -/
def createHostRootFiber (tag : Nat) : Fiber :=
  let mode :=
    if tag = ConcurrentRoot then ConcurrentMode ||| BlockingMode ||| StrictMode
    else if tag = BlockingRoot then BlockingMode ||| StrictMode
    else NoMode
  let mode := if enableProfilerTimer && isDevToolsPresent then mode ||| ProfileMode else mode
  mkFiberNode WorkTag.hostRoot JSValue.jsNull none mode

/-- `shouldConstruct(Component)`: `!!(prototype && prototype.isReactComponent)`. -/
def shouldConstruct : JSValue → Bool
  | JSValue.fnVal isRC _ _ => isRC
  | _ => false

/-- JavaScript `typeof`. -/
def jsTypeof : JSValue → String
  | JSValue.undef => "undefined"
  | JSValue.jsNull => "object"
  | JSValue.str _ => "string"
  | JSValue.num _ => "number"
  | JSValue.boolV _ => "boolean"
  | JSValue.fnVal _ _ _ => "function"
  | JSValue.symbol _ => "symbol"
  | JSValue.obj _ _ _ => "object"

/-- The first format argument of the invalid-type invariant:
`type == null ? type : typeof type` (so `null` and `undefined` print as
themselves, everything else as its `typeof`). -/
def typeDescriptionArg : JSValue → String
  | JSValue.undef => "undefined"
  | JSValue.jsNull => "null"
  | v => jsTypeof v

/-- `typeof type === 'object' && type !== null && Object.keys(type).length === 0`. -/
def isEmptyObjectLike : JSValue → Bool
  | JSValue.obj _ keyCount _ => keyCount = 0
  | _ => false

/-- Modelled from the spec: `getComponentName` (`shared/getComponentName` is
not among the vendored files).  The spec says the diagnostic names the
nearest enclosing composite (e.g. an owner named "App"); the name of a
function or class definition is its function name, and an intrinsic tag
names itself. -/
def getComponentName : JSValue → Option String
  | JSValue.fnVal _ name _ => name
  | JSValue.str s => some s
  | _ => none

/-- Errors surfaced by the classifier. -/
inductive ReactError where
  | invalidElementType : String → ReactError
  deriving DecidableEq, Repr

/-- The `info` suffix of the invalid-element-type diagnostic, built only in
a `__DEV__` build: the missing-default-export hint when the type is
`undefined` or an empty object, then the nearest named owner if any. -/
def invalidTypeInfo (dev : Bool) (type : JSValue) (owner : Option Fiber) : String :=
  if dev then
    let info :=
      if type = JSValue.undef || isEmptyObjectLike type then
        " You likely forgot to export your component from the file " ++
        "it\x27s defined in, or you might have mixed up default and " ++
        "named imports."
      else ""
    match owner with
    | some o =>
      match getComponentName o.type with
      | some ownerName =>
        info ++ "\n\nCheck the render method of `" ++ ownerName ++ "`."
      | none => info
    | none => info
  else ""

/-- Modelled from the spec: `invariant` (`shared/invariant` is not among the
vendored files) fails with the format string instantiated with its
arguments; the spec calls this the `InvalidElementType` error with a
human-readable diagnostic. -/
def invalidElementTypeMessage (typeDesc info : String) : String :=
  "Element type is invalid: expected a string (for built-in " ++
  "components) or a class/function (for composite components) " ++
  "but got: " ++ typeDesc ++ "." ++ info

/-- Reading the `children` property of a props value. -/
def getChildren : JSValue → JSValue
  | JSValue.obj _ _ c => c
  | _ => JSValue.undef

/-- `createFiberFromFragment(elements, mode, expirationTime, key)`: the
fragment fiber takes the children description itself as `pendingProps`. -/
def createFiberFromFragment (elements : JSValue) (mode : Nat)
    (expirationTime : Nat) (key : Option String) : Fiber :=
  { mkFiberNode WorkTag.fragment elements key mode with
    expirationTime := expirationTime }

/-- `createFiberFromProfiler` (production: no prop validation). -/
def createFiberFromProfiler (pendingProps : JSValue) (mode : Nat)
    (expirationTime : Nat) (key : Option String) : Fiber :=
  { mkFiberNode WorkTag.profiler pendingProps key (mode ||| ProfileMode) with
    elementType := JSValue.symbol ReactSymbol.profiler
    type := JSValue.symbol ReactSymbol.profiler
    expirationTime := expirationTime }

/-- `createFiberFromSuspense`. -/
def createFiberFromSuspense (pendingProps : JSValue) (mode : Nat)
    (expirationTime : Nat) (key : Option String) : Fiber :=
  { mkFiberNode WorkTag.suspenseComponent pendingProps key mode with
    type := JSValue.symbol ReactSymbol.suspense
    elementType := JSValue.symbol ReactSymbol.suspense
    expirationTime := expirationTime }

/-- `createFiberFromSuspenseList` (production: `type` is only set in DEV). -/
def createFiberFromSuspenseList (pendingProps : JSValue) (mode : Nat)
    (expirationTime : Nat) (key : Option String) : Fiber :=
  { mkFiberNode WorkTag.suspenseListComponent pendingProps key mode with
    elementType := JSValue.symbol ReactSymbol.suspenseList
    expirationTime := expirationTime }

/-- `createFiberFromFundamental` (unreachable under production flags). -/
def createFiberFromFundamental (fundamentalComponent : JSValue)
    (pendingProps : JSValue) (mode : Nat) (expirationTime : Nat)
    (key : Option String) : Fiber :=
  { mkFiberNode WorkTag.fundamentalComponent pendingProps key mode with
    elementType := fundamentalComponent
    type := fundamentalComponent
    expirationTime := expirationTime }

/-- `createFiberFromScope` (unreachable under production flags). -/
def createFiberFromScope (scope : JSValue) (pendingProps : JSValue)
    (mode : Nat) (expirationTime : Nat) (key : Option String) : Fiber :=
  { mkFiberNode WorkTag.scopeComponent pendingProps key mode with
    type := scope
    elementType := scope
    expirationTime := expirationTime }

/-- The common exit of `createFiberFromTypeAndProps`:
`fiber = createFiber(fiberTag, pendingProps, key, mode)` followed by
`elementType = type`, `type = resolvedType`, `expirationTime`. -/
def finishFiber (fiberTag : WorkTag) (type resolvedType : JSValue)
    (pendingProps : JSValue) (key : Option String) (mode : Nat)
    (expirationTime : Nat) : Fiber :=
  { mkFiberNode fiberTag pendingProps key mode with
    elementType := type
    type := resolvedType
    expirationTime := expirationTime }

/-- `createFiberFromTypeAndProps(type, key, pendingProps, owner, mode,
expirationTime)` — the classifier.  Functions split on `shouldConstruct`,
strings become host components, the built-in symbols dispatch to their
specialized constructors, `$$typeof`-tagged objects get their matching tag,
and everything else fails with the invalid-element-type diagnostic.
Feature flags take their production values, so the fundamental and scope
`$$typeof` cases fall through to the failure path; `dev` gates only the
diagnostic `info` construction (hot-reloading type resolution is DEV-only
and is the identity here). -/
def createFiberFromTypeAndProps (dev : Bool) (type : JSValue)
    (key : Option String) (pendingProps : JSValue) (owner : Option Fiber)
    (mode : Nat) (expirationTime : Nat) : Except ReactError Fiber :=
  let fail : Except ReactError Fiber :=
    Except.error (ReactError.invalidElementType
      (invalidElementTypeMessage (typeDescriptionArg type)
        (invalidTypeInfo dev type owner)))
  match type with
  | JSValue.fnVal _ _ _ =>
    if shouldConstruct type then
      Except.ok (finishFiber WorkTag.classComponent type type pendingProps key mode expirationTime)
    else
      Except.ok (finishFiber WorkTag.indeterminateComponent type type pendingProps key mode expirationTime)
  | JSValue.str _ =>
    Except.ok (finishFiber WorkTag.hostComponent type type pendingProps key mode expirationTime)
  | JSValue.symbol ReactSymbol.fragment =>
    Except.ok (createFiberFromFragment (getChildren pendingProps) mode expirationTime key)
  | JSValue.symbol ReactSymbol.concurrentMode =>
    Except.ok (finishFiber WorkTag.mode type type pendingProps key
      (mode ||| (ConcurrentMode ||| BlockingMode ||| StrictMode)) expirationTime)
  | JSValue.symbol ReactSymbol.strictMode =>
    Except.ok (finishFiber WorkTag.mode type type pendingProps key
      (mode ||| StrictMode) expirationTime)
  | JSValue.symbol ReactSymbol.profiler =>
    Except.ok (createFiberFromProfiler pendingProps mode expirationTime key)
  | JSValue.symbol ReactSymbol.suspense =>
    Except.ok (createFiberFromSuspense pendingProps mode expirationTime key)
  | JSValue.symbol ReactSymbol.suspenseList =>
    Except.ok (createFiberFromSuspenseList pendingProps mode expirationTime key)
  | JSValue.obj (some ReactSymbol.provider) _ _ =>
    Except.ok (finishFiber WorkTag.contextProvider type type pendingProps key mode expirationTime)
  | JSValue.obj (some ReactSymbol.context) _ _ =>
    Except.ok (finishFiber WorkTag.contextConsumer type type pendingProps key mode expirationTime)
  | JSValue.obj (some ReactSymbol.forwardRef) _ _ =>
    Except.ok (finishFiber WorkTag.forwardRef type type pendingProps key mode expirationTime)
  | JSValue.obj (some ReactSymbol.memo) _ _ =>
    Except.ok (finishFiber WorkTag.memoComponent type type pendingProps key mode expirationTime)
  | JSValue.obj (some ReactSymbol.lazy) _ _ =>
    Except.ok (finishFiber WorkTag.lazyComponent type JSValue.jsNull pendingProps key mode expirationTime)
  | JSValue.obj (some ReactSymbol.block) _ _ =>
    Except.ok (finishFiber WorkTag.block type type pendingProps key mode expirationTime)
  | JSValue.obj (some ReactSymbol.fundamental) _ _ =>
    if enableFundamentalAPI then
      Except.ok (createFiberFromFundamental type pendingProps mode expirationTime key)
    else fail
  | JSValue.obj (some ReactSymbol.scope) _ _ =>
    if enableScopeAPI then
      Except.ok (createFiberFromScope type pendingProps mode expirationTime key)
    else fail
  | _ => fail

/-! Heap-lookup lemmas. -/

theorem hupd_self {α : Type} (f : Nat → Option α) (i : Nat) (v : α) :
    hupd f i v i = some v := by
  simp [hupd]

theorem hupd_ne {α : Type} (f : Nat → Option α) {i j : Nat} (v : α) (hij : j ≠ i) :
    hupd f i v j = f j := by
  simp [hupd, hij]

theorem setFiber_self (h : Heap) (i : Nat) (f : Fiber) :
    (h.setFiber i f).fibers i = some f := by
  simp [Heap.setFiber, hupd]

theorem setFiber_ne (h : Heap) {i j : Nat} (f : Fiber) (hij : j ≠ i) :
    (h.setFiber i f).fibers j = h.fibers j := by
  simp [Heap.setFiber, hupd, hij]

theorem setFiber_deps (h : Heap) (i : Nat) (f : Fiber) :
    (h.setFiber i f).deps = h.deps := rfl

theorem setFiber_nextFiber (h : Heap) (i : Nat) (f : Fiber) :
    (h.setFiber i f).nextFiber = h.nextFiber := rfl

theorem setFiber_nextDeps (h : Heap) (i : Nat) (f : Fiber) :
    (h.setFiber i f).nextDeps = h.nextDeps := rfl

theorem wf_fiber_lt {h : Heap} (hwf : h.WF) {c : Nat} {f : Fiber}
    (hc : h.fibers c = some f) : c < h.nextFiber := by
  by_contra hge
  rw [hwf.1 c (Nat.le_of_not_lt hge)] at hc
  exact Option.noConfusion hc

theorem wf_deps_lt {h : Heap} (hwf : h.WF) {d : Nat} {v : Dependencies}
    (hd : h.deps d = some v) : d < h.nextDeps := by
  by_contra hge
  rw [hwf.2 d (Nat.le_of_not_lt hge)] at hd
  exact Option.noConfusion hd

/-! Branch equations for the embedded operations. -/

theorem cloneDeps_none (h : Heap) : cloneDeps h none = some (none, h) := rfl

theorem cloneDeps_some {h : Heap} {dId : Nat} {dob : Dependencies}
    (hd : h.deps dId = some dob) :
    cloneDeps h (some dId) = some (some h.nextDeps,
      { h with
        deps := hupd h.deps h.nextDeps
          { expirationTime := dob.expirationTime
            firstContext := dob.firstContext
            responders := dob.responders }
        nextDeps := h.nextDeps + 1 }) := by
  unfold cloneDeps
  dsimp only
  rw [hd]

theorem copyForward_eq {h : Heap} {c w : Nat} {current wip : Fiber}
    (hc : h.fibers c = some current) (hw : h.fibers w = some wip) :
    copyForward h c w = (cloneDeps h current.dependencies).map
      (fun nd => (w, (nd.2).setFiber w (copiedFields wip current nd.1))) := by
  unfold copyForward
  rw [hc, hw]
  dsimp only
  cases hcd : cloneDeps h current.dependencies with
  | none => rfl
  | some nd => rfl

theorem createWorkInProgress_fresh {h : Heap} {c : Nat} {p : JSValue}
    {current : Fiber} (hc : h.fibers c = some current)
    (halt : current.alternate = none) :
    createWorkInProgress h c p =
      copyForward
        (Heap.setFiber
          { h with
            fibers := hupd h.fibers h.nextFiber (freshWip current p c)
            nextFiber := h.nextFiber + 1 }
          c { current with alternate := some h.nextFiber })
        c h.nextFiber := by
  unfold createWorkInProgress
  rw [hc]
  dsimp only
  rw [halt]

theorem createWorkInProgress_reuse {h : Heap} {c w : Nat} {p : JSValue}
    {current wip : Fiber} (hc : h.fibers c = some current)
    (halt : current.alternate = some w) (hw : h.fibers w = some wip) :
    createWorkInProgress h c p =
      copyForward (h.setFiber w (reusedWip wip p)) c w := by
  unfold createWorkInProgress
  rw [hc]
  dsimp only
  rw [halt]
  dsimp only
  rw [hw]

/-- What `createWorkInProgress` guarantees about the returned paired fiber
`w` in heap `H`, relative to the previous-generation fiber `current` and the
pre-copy base record `base` (the freshly allocated fiber on the allocation
branch, the existing alternate on the reuse branch): the
regardless-of-branch copies come from `current`, the pass-scoped fields are
reset and the new props installed, the identity fields come from `base`,
and the dependencies object is a fresh independent copy. -/
def pairedResult (h H : Heap) (current base : Fiber) (p : JSValue) (w : Nat) : Prop :=
  ∃ wf, H.fibers w = some wf ∧
    wf.childExpirationTime = current.childExpirationTime ∧
    wf.expirationTime = current.expirationTime ∧
    wf.child = current.child ∧
    wf.memoizedProps = current.memoizedProps ∧
    wf.memoizedState = current.memoizedState ∧
    wf.updateQueue = current.updateQueue ∧
    wf.sibling = current.sibling ∧
    wf.index = current.index ∧
    wf.ref = current.ref ∧
    wf.pendingProps = p ∧
    wf.effectTag = NoEffect ∧
    wf.nextEffect = none ∧
    wf.firstEffect = none ∧
    wf.lastEffect = none ∧
    wf.tag = base.tag ∧
    wf.key = base.key ∧
    wf.mode = base.mode ∧
    wf.elementType = base.elementType ∧
    wf.type = base.type ∧
    wf.stateNode = base.stateNode ∧
    wf.ret = base.ret ∧
    wf.alternate = base.alternate ∧
    (current.dependencies = none →
      wf.dependencies = none ∧ H.deps = h.deps ∧ H.nextDeps = h.nextDeps) ∧
    (∀ dId, current.dependencies = some dId →
      wf.dependencies = some h.nextDeps ∧ dId ≠ h.nextDeps ∧
      H.nextDeps = h.nextDeps + 1 ∧
      ∃ dob, h.deps dId = some dob ∧ H.deps dId = some dob ∧
        H.deps h.nextDeps = some dob)

theorem copyForward_cases {h : Heap} {c w : Nat} {r : Nat × Heap}
    (e : copyForward h c w = some r) :
    ∃ current wip, h.fibers c = some current ∧ h.fibers w = some wip ∧
      ((current.dependencies = none ∧
          r = (w, h.setFiber w (copiedFields wip current none))) ∨
       (∃ dId dob, current.dependencies = some dId ∧ h.deps dId = some dob ∧
          r = (w, Heap.setFiber
            { h with
              deps := hupd h.deps h.nextDeps
                { expirationTime := dob.expirationTime
                  firstContext := dob.firstContext
                  responders := dob.responders }
              nextDeps := h.nextDeps + 1 }
            w (copiedFields wip current (some h.nextDeps))))) := by
  unfold copyForward at e
  cases hcc : h.fibers c with
  | none =>
    rw [hcc] at e
    exact Option.noConfusion e
  | some current =>
    cases hww : h.fibers w with
    | none =>
      rw [hcc, hww] at e
      exact Option.noConfusion e
    | some wip =>
      rw [hcc, hww] at e
      dsimp only at e
      refine ⟨current, wip, rfl, rfl, ?_⟩
      cases hdep : current.dependencies with
      | none =>
        rw [hdep, cloneDeps_none] at e
        exact Or.inl ⟨rfl, (Option.some.inj e).symm⟩
      | some dId =>
        rw [hdep] at e
        cases hdob : h.deps dId with
        | none =>
          unfold cloneDeps at e
          dsimp only at e
          rw [hdob] at e
          exact Option.noConfusion e
        | some dob =>
          rw [cloneDeps_some hdob] at e
          dsimp only at e
          exact Or.inr ⟨dId, dob, rfl, hdob, (Option.some.inj e).symm⟩

theorem fresh_spec {h : Heap} (hwf : h.WF) {c : Nat} {p : JSValue}
    {current : Fiber} (hc : h.fibers c = some current)
    (halt : current.alternate = none) {w : Nat} {H : Heap}
    (e : createWorkInProgress h c p = some (w, H)) :
    w = h.nextFiber ∧ c ≠ w ∧ H.nextFiber = h.nextFiber + 1 ∧
    H.fibers c = some { current with alternate := some w } ∧
    pairedResult h H current (freshWip current p c) p w := by
  have hclt := wf_fiber_lt hwf hc
  have hcne : c ≠ h.nextFiber := Nat.ne_of_lt hclt
  rw [createWorkInProgress_fresh hc halt] at e
  obtain ⟨cur2, wip2, hc2, hw2, hcase⟩ := copyForward_cases e
  have hnf : (Heap.setFiber
      { h with
        fibers := hupd h.fibers h.nextFiber (freshWip current p c)
        nextFiber := h.nextFiber + 1 }
      c { current with alternate := some h.nextFiber }).fibers h.nextFiber =
      some (freshWip current p c) := by
    rw [setFiber_ne _ _ (Ne.symm hcne)]
    exact hupd_self _ _ _
  have hcur2 : cur2 = { current with alternate := some h.nextFiber } :=
    Option.some.inj (hc2.symm.trans (setFiber_self _ _ _))
  have hwip2 : wip2 = freshWip current p c :=
    Option.some.inj (hw2.symm.trans hnf)
  subst hcur2
  subst hwip2
  rcases hcase with ⟨hdep', hr⟩ | ⟨dId, dob, hdep', hdob', hr⟩
  · have hdep : current.dependencies = none := hdep'
    obtain ⟨rfl, rfl⟩ := Prod.ext_iff.mp hr
    refine ⟨rfl, hcne, rfl, ?_, ?_⟩
    · rw [setFiber_ne _ _ hcne]
      exact setFiber_self _ _ _
    · refine ⟨_, setFiber_self _ _ _, rfl, rfl, rfl, rfl, rfl, rfl, rfl, rfl,
        rfl, rfl, rfl, rfl, rfl, rfl, rfl, rfl, rfl, rfl, rfl, rfl, rfl, rfl,
        fun _ => ⟨rfl, rfl, rfl⟩, fun dId2 hdd => ?_⟩
      rw [hdep] at hdd
      exact Option.noConfusion hdd
  · have hdep : current.dependencies = some dId := hdep'
    have hdob : h.deps dId = some dob := hdob'
    have hdne : dId ≠ h.nextDeps := Nat.ne_of_lt (wf_deps_lt hwf hdob)
    obtain ⟨rfl, rfl⟩ := Prod.ext_iff.mp hr
    refine ⟨rfl, hcne, rfl, ?_, ?_⟩
    · rw [setFiber_ne _ _ hcne]
      exact setFiber_self _ _ _
    · refine ⟨_, setFiber_self _ _ _, rfl, rfl, rfl, rfl, rfl, rfl, rfl, rfl,
        rfl, rfl, rfl, rfl, rfl, rfl, rfl, rfl, rfl, rfl, rfl, rfl, rfl, rfl,
        fun hdd => ?_, fun dId2 hdd => ?_⟩
      · rw [hdep] at hdd
        exact Option.noConfusion hdd
      · obtain rfl : dId = dId2 := Option.some.inj (hdep.symm.trans hdd)
        exact ⟨rfl, hdne, rfl, dob, hdob,
          (hupd_ne _ _ hdne).trans hdob, hupd_self _ _ _⟩

theorem pair_fst {α β : Type} {a c : α} {b d : β} (h : (a, b) = (c, d)) :
    a = c := congrArg Prod.fst h

theorem pair_snd {α β : Type} {a c : α} {b d : β} (h : (a, b) = (c, d)) :
    b = d := congrArg Prod.snd h

theorem reuse_spec {h : Heap} (hwf : h.WF) {c w0 : Nat} {p : JSValue}
    {current wip : Fiber} (hc : h.fibers c = some current)
    (halt : current.alternate = some w0) (hw : h.fibers w0 = some wip)
    {w : Nat} {H : Heap} (e : createWorkInProgress h c p = some (w, H)) :
    w = w0 ∧ H.nextFiber = h.nextFiber ∧
    (c ≠ w0 → H.fibers c = some current) ∧
    pairedResult h H current wip p w0 := by
  rw [createWorkInProgress_reuse hc halt hw] at e
  obtain ⟨cur2, wip2, hc2, hw2, hcase⟩ := copyForward_cases e
  have hwip2 : wip2 = reusedWip wip p :=
    Option.some.inj (hw2.symm.trans (setFiber_self _ _ _))
  subst hwip2
  by_cases hcw : c = w0
  · subst hcw
    have hcw2 : wip = current := Option.some.inj (hw.symm.trans hc)
    subst hcw2
    have hcur2 : cur2 = reusedWip wip p :=
      Option.some.inj (hc2.symm.trans (setFiber_self _ _ _))
    subst hcur2
    rcases hcase with ⟨hdep', hr⟩ | ⟨dId, dob, hdep', hdob', hr⟩
    · have hdep : wip.dependencies = none := hdep'
      obtain rfl := pair_fst hr
      obtain rfl := pair_snd hr
      refine ⟨rfl, rfl, fun hne => absurd rfl hne, ?_⟩
      refine ⟨_, setFiber_self _ _ _, rfl, rfl, rfl, rfl, rfl, rfl, rfl, rfl,
        rfl, rfl, rfl, rfl, rfl, rfl, rfl, rfl, rfl, rfl, rfl, rfl, rfl, rfl,
        fun _ => ⟨rfl, rfl, rfl⟩, fun dId2 hdd => ?_⟩
      rw [hdep] at hdd
      exact Option.noConfusion hdd
    · have hdep : wip.dependencies = some dId := hdep'
      have hdob : h.deps dId = some dob := hdob'
      have hdne : dId ≠ h.nextDeps := Nat.ne_of_lt (wf_deps_lt hwf hdob)
      obtain rfl := pair_fst hr
      obtain rfl := pair_snd hr
      refine ⟨rfl, rfl, fun hne => absurd rfl hne, ?_⟩
      refine ⟨_, setFiber_self _ _ _, rfl, rfl, rfl, rfl, rfl, rfl, rfl, rfl,
        rfl, rfl, rfl, rfl, rfl, rfl, rfl, rfl, rfl, rfl, rfl, rfl, rfl, rfl,
        fun hdd => ?_, fun dId2 hdd => ?_⟩
      · rw [hdep] at hdd
        exact Option.noConfusion hdd
      · obtain rfl : dId = dId2 := Option.some.inj (hdep.symm.trans hdd)
        exact ⟨rfl, hdne, rfl, dob, hdob,
          (hupd_ne _ _ hdne).trans hdob, hupd_self _ _ _⟩
  · have hlk : (h.setFiber w0 (reusedWip wip p)).fibers c = some current := by
      rw [setFiber_ne _ _ hcw]
      exact hc
    have hcur2 : cur2 = current := Option.some.inj (hc2.symm.trans hlk)
    subst hcur2
    rcases hcase with ⟨hdep, hr⟩ | ⟨dId, dob, hdep, hdob', hr⟩
    · obtain rfl := pair_fst hr
      obtain rfl := pair_snd hr
      refine ⟨rfl, rfl, fun _ => (setFiber_ne _ _ hcw).trans hlk, ?_⟩
      refine ⟨_, setFiber_self _ _ _, rfl, rfl, rfl, rfl, rfl, rfl, rfl, rfl,
        rfl, rfl, rfl, rfl, rfl, rfl, rfl, rfl, rfl, rfl, rfl, rfl, rfl, rfl,
        fun _ => ⟨rfl, rfl, rfl⟩, fun dId2 hdd => ?_⟩
      rw [hdep] at hdd
      exact Option.noConfusion hdd
    · have hdob : h.deps dId = some dob := hdob'
      have hdne : dId ≠ h.nextDeps := Nat.ne_of_lt (wf_deps_lt hwf hdob)
      obtain rfl := pair_fst hr
      obtain rfl := pair_snd hr
      refine ⟨rfl, rfl, fun _ => (setFiber_ne _ _ hcw).trans hlk, ?_⟩
      refine ⟨_, setFiber_self _ _ _, rfl, rfl, rfl, rfl, rfl, rfl, rfl, rfl,
        rfl, rfl, rfl, rfl, rfl, rfl, rfl, rfl, rfl, rfl, rfl, rfl, rfl, rfl,
        fun hdd => ?_, fun dId2 hdd => ?_⟩
      · rw [hdep] at hdd
        exact Option.noConfusion hdd
      · obtain rfl : dId = dId2 := Option.some.inj (hdep.symm.trans hdd)
        exact ⟨rfl, hdne, rfl, dob, hdob,
          (hupd_ne _ _ hdne).trans hdob, hupd_self _ _ _⟩

theorem createWorkInProgress_dangling {h : Heap} {c : Nat} {p : JSValue}
    (hc : h.fibers c = none) : createWorkInProgress h c p = none := by
  unfold createWorkInProgress
  rw [hc]

theorem createWorkInProgress_reuse_dangling {h : Heap} {c w0 : Nat}
    {p : JSValue} {current : Fiber} (hc : h.fibers c = some current)
    (halt : current.alternate = some w0) (hw : h.fibers w0 = none) :
    createWorkInProgress h c p = none := by
  unfold createWorkInProgress
  rw [hc]
  dsimp only
  rw [halt]
  dsimp only
  rw [hw]

theorem createWorkInProgress_reuse_total {h : Heap} {c w0 : Nat}
    {p : JSValue} {current wip : Fiber} (hc : h.fibers c = some current)
    (halt : current.alternate = some w0) (hw : h.fibers w0 = some wip)
    (hdp : ∀ dId, current.dependencies = some dId →
      ∃ dob, h.deps dId = some dob) :
    ∃ H, createWorkInProgress h c p = some (w0, H) ∧
      H.nextFiber = h.nextFiber := by
  rw [createWorkInProgress_reuse hc halt hw]
  by_cases hcw : c = w0
  · subst hcw
    have hcw2 : wip = current := Option.some.inj (hw.symm.trans hc)
    subst hcw2
    cases hdep : wip.dependencies with
    | none =>
      refine ⟨(h.setFiber c (reusedWip wip p)).setFiber c
        (copiedFields (reusedWip wip p) (reusedWip wip p) none), ?_, rfl⟩
      rw [copyForward_eq (setFiber_self _ _ _) (setFiber_self _ _ _)]
      have hd2 : (reusedWip wip p).dependencies = none := hdep
      rw [hd2, cloneDeps_none]
      rfl
    | some dId =>
      obtain ⟨dob, hdob⟩ := hdp dId hdep
      have hd2 : (reusedWip wip p).dependencies = some dId := hdep
      have hdob2 : (h.setFiber c (reusedWip wip p)).deps dId = some dob := hdob
      refine ⟨Heap.setFiber
        { h.setFiber c (reusedWip wip p) with
          deps := hupd h.deps h.nextDeps
            { expirationTime := dob.expirationTime
              firstContext := dob.firstContext
              responders := dob.responders }
          nextDeps := h.nextDeps + 1 }
        c (copiedFields (reusedWip wip p) (reusedWip wip p) (some h.nextDeps)),
        ?_, rfl⟩
      rw [copyForward_eq (setFiber_self _ _ _) (setFiber_self _ _ _)]
      rw [hd2, cloneDeps_some hdob2]
      rfl
  · have hlk : (h.setFiber w0 (reusedWip wip p)).fibers c = some current := by
      rw [setFiber_ne _ _ hcw]
      exact hc
    cases hdep : current.dependencies with
    | none =>
      refine ⟨(h.setFiber w0 (reusedWip wip p)).setFiber w0
        (copiedFields (reusedWip wip p) current none), ?_, rfl⟩
      rw [copyForward_eq hlk (setFiber_self _ _ _)]
      rw [hdep, cloneDeps_none]
      rfl
    | some dId =>
      obtain ⟨dob, hdob⟩ := hdp dId hdep
      have hdob2 : (h.setFiber w0 (reusedWip wip p)).deps dId = some dob := hdob
      refine ⟨Heap.setFiber
        { h.setFiber w0 (reusedWip wip p) with
          deps := hupd h.deps h.nextDeps
            { expirationTime := dob.expirationTime
              firstContext := dob.firstContext
              responders := dob.responders }
          nextDeps := h.nextDeps + 1 }
        w0 (copiedFields (reusedWip wip p) current (some h.nextDeps)),
        ?_, rfl⟩
      rw [copyForward_eq hlk (setFiber_self _ _ _)]
      rw [hdep, cloneDeps_some hdob2]
      rfl

/-- C1: idempotent pairing (reuse bound).  For every valid previous node,
after one call to `createWorkInProgress` has paired it (fresh or reused), a
second call without an intervening commit returns the same paired node id
and allocates no new fiber (the fiber allocation counter is unchanged). -/
theorem C1_pairing_idempotent {h : Heap} (hwf : h.WF) {c : Nat}
    {p q : JSValue} {w1 : Nat} {H1 : Heap}
    (e1 : createWorkInProgress h c p = some (w1, H1)) :
    Option.map (fun r => (r.1, r.2.nextFiber)) (createWorkInProgress H1 c q) =
      some (w1, H1.nextFiber) := by
  cases hc : h.fibers c with
  | none =>
    rw [createWorkInProgress_dangling hc] at e1
    exact Option.noConfusion e1
  | some current =>
    cases halt : current.alternate with
    | none =>
      obtain ⟨-, -, -, hHc, wf, hwfib, -, -, -, -, -, -, -, -, -, -, -, -, -,
        -, -, -, -, -, -, -, -, -, -, hds⟩ := fresh_spec hwf hc halt e1
      have halt1 : ({ current with alternate := some w1 } : Fiber).alternate =
          some w1 := rfl
      have hdp : ∀ dId, ({ current with alternate := some w1 } : Fiber).dependencies =
          some dId → ∃ dob, H1.deps dId = some dob := by
        intro dId hdd
        obtain ⟨-, -, -, dob, -, hdid, -⟩ := hds dId hdd
        exact ⟨dob, hdid⟩
      obtain ⟨H2, hrun, hnf2⟩ :=
        createWorkInProgress_reuse_total (p := q) hHc halt1 hwfib hdp
      simp [hrun, hnf2]
    | some w0 =>
      cases hww : h.fibers w0 with
      | none =>
        rw [createWorkInProgress_reuse_dangling hc halt hww] at e1
        exact Option.noConfusion e1
      | some wip =>
        obtain ⟨rfl, -, hHcne, wf, hwfib, -, -, -, -, -, -, -, -, -, -, -, -,
          -, -, -, -, -, -, -, -, -, haltwf, hdn, hds⟩ :=
          reuse_spec hwf hc halt hww e1
        by_cases hcw : c = w1
        · subst hcw
          have hwipcur : wip = current := Option.some.inj (hww.symm.trans hc)
          have haltwf2 : wf.alternate = some c := by
            rw [haltwf, hwipcur]
            exact halt
          have hdp : ∀ dId2, wf.dependencies = some dId2 →
              ∃ dob, H1.deps dId2 = some dob := by
            intro dId2 hdd
            cases hdc : current.dependencies with
            | none =>
              have h0 := (hdn hdc).1
              rw [h0] at hdd
              exact Option.noConfusion hdd
            | some dId =>
              obtain ⟨hwd, -, -, dob, -, -, hnd⟩ := hds dId hdc
              obtain rfl := Option.some.inj (hwd.symm.trans hdd)
              exact ⟨dob, hnd⟩
          obtain ⟨H2, hrun, hnf2⟩ :=
            createWorkInProgress_reuse_total (p := q) hwfib haltwf2 hwfib hdp
          simp [hrun, hnf2]
        · have hH1c := hHcne hcw
          have hdp : ∀ dId, current.dependencies = some dId →
              ∃ dob, H1.deps dId = some dob := by
            intro dId hdd
            obtain ⟨-, -, -, dob, -, hdid, -⟩ := hds dId hdd
            exact ⟨dob, hdid⟩
          obtain ⟨H2, hrun, hnf2⟩ :=
            createWorkInProgress_reuse_total (p := q) hH1c halt hwfib hdp
          simp [hrun, hnf2]

/-- C2: pairing symmetry.  Assuming any pre-existing pairing of the previous
node is itself symmetric (the documented pairing invariant), after
`createWorkInProgress` returns node `w`, the previous node's `alternate`
points to `w` and `w`'s `alternate` points back to the previous node — on
both the fresh-allocation branch and the reuse branch. -/
theorem C2_pairing_symmetry {h : Heap} (hwf : h.WF) {c : Nat} {p : JSValue}
    {current : Fiber} (hc : h.fibers c = some current)
    (hsym : ∀ a, current.alternate = some a →
      ∃ af, h.fibers a = some af ∧ af.alternate = some c)
    {w : Nat} {H : Heap} (e : createWorkInProgress h c p = some (w, H)) :
    (H.fibers c).bind Fiber.alternate = some w ∧
    (H.fibers w).bind Fiber.alternate = some c := by
  cases halt : current.alternate with
  | none =>
    obtain ⟨-, -, -, hHc, wf, hwfib, -, -, -, -, -, -, -, -, -, -, -, -, -,
      -, -, -, -, -, -, -, -, haltwf, -, -⟩ := fresh_spec hwf hc halt e
    constructor
    · rw [hHc]
      rfl
    · rw [hwfib]
      exact haltwf
  | some w0 =>
    obtain ⟨af, haf, hafalt⟩ := hsym w0 halt
    obtain ⟨rfl, -, hHcne, wf, hwfib, -, -, -, -, -, -, -, -, -, -, -, -, -,
      -, -, -, -, -, -, -, -, haltwf, -, -⟩ := reuse_spec hwf hc halt haf e
    by_cases hcw : c = w
    · subst hcw
      constructor
      · rw [hwfib]
        exact haltwf.trans hafalt
      · rw [hwfib]
        exact haltwf.trans hafalt
    · constructor
      · rw [hHcne hcw]
        exact halt
      · rw [hwfib]
        exact haltwf.trans hafalt

/-- C4: the regardless-of-branch copies.  Every call to
`createWorkInProgress` copies `childExpirationTime`, `expirationTime`,
`child`, `memoizedProps`, `memoizedState` and `updateQueue` forward from the
previous node into the paired node, and clones the `dependencies` object
into a fresh object (distinct id, equal contents) so that mutating the
paired node's copy cannot change the previous generation's copy. -/
theorem C4_copy_forward {h : Heap} (hwf : h.WF) {c : Nat} {p : JSValue}
    {current : Fiber} (hc : h.fibers c = some current)
    {w : Nat} {H : Heap} (e : createWorkInProgress h c p = some (w, H)) :
    ∃ wf, H.fibers w = some wf ∧
      wf.childExpirationTime = current.childExpirationTime ∧
      wf.expirationTime = current.expirationTime ∧
      wf.child = current.child ∧
      wf.memoizedProps = current.memoizedProps ∧
      wf.memoizedState = current.memoizedState ∧
      wf.updateQueue = current.updateQueue ∧
      (current.dependencies = none → wf.dependencies = none) ∧
      (∀ dId, current.dependencies = some dId →
        wf.dependencies = some h.nextDeps ∧ h.nextDeps ≠ dId ∧
        H.deps h.nextDeps = H.deps dId ∧
        (∀ d2, (H.setDeps h.nextDeps d2).deps dId = H.deps dId)) := by
  suffices hp : ∃ base, pairedResult h H current base p w by
    obtain ⟨base, wf, hwfib, h1, h2, h3, h4, h5, h6, -, -, -, -, -, -, -, -,
      -, -, -, -, -, -, -, -, hdn, hds⟩ := hp
    refine ⟨wf, hwfib, h1, h2, h3, h4, h5, h6, fun hd => (hdn hd).1,
      fun dId hd => ?_⟩
    obtain ⟨hwd, hne, -, dob, -, hdid, hnd⟩ := hds dId hd
    refine ⟨hwd, Ne.symm hne, hnd.trans hdid.symm, fun d2 => ?_⟩
    exact hupd_ne _ _ hne
  cases halt : current.alternate with
  | none => exact ⟨_, (fresh_spec hwf hc halt e).2.2.2.2⟩
  | some w0 =>
    cases hww : h.fibers w0 with
    | none =>
      rw [createWorkInProgress_reuse_dangling hc halt hww] at e
      exact Option.noConfusion e
    | some wip =>
      obtain ⟨rfl, -, -, hpr⟩ := reuse_spec hwf hc halt hww e
      exact ⟨wip, hpr⟩

/-- C5: in-place reuse.  When the previous node already has a paired
alternate, `createWorkInProgress` returns exactly that node (no allocation),
installs the new `pendingProps`, resets `effectTag` to `NoEffect`, empties
the three effect-list pointers, and leaves `tag`, `key` and `mode`
unchanged. -/
theorem C5_reuse_in_place {h : Heap} (hwf : h.WF) {c w0 : Nat} {p : JSValue}
    {current wip : Fiber} (hc : h.fibers c = some current)
    (halt : current.alternate = some w0) (hw : h.fibers w0 = some wip)
    {w : Nat} {H : Heap} (e : createWorkInProgress h c p = some (w, H)) :
    w = w0 ∧ H.nextFiber = h.nextFiber ∧
    ∃ wf, H.fibers w0 = some wf ∧
      wf.pendingProps = p ∧ wf.effectTag = NoEffect ∧
      wf.nextEffect = none ∧ wf.firstEffect = none ∧ wf.lastEffect = none ∧
      wf.tag = wip.tag ∧ wf.key = wip.key ∧ wf.mode = wip.mode := by
  obtain ⟨rfl, hnf, -, wf, hwfib, -, -, -, -, -, -, -, -, -, hpp, het, hne,
    hfe, hle, htag, hkey, hmode, -, -, -, -, -, -, -⟩ :=
    reuse_spec hwf hc halt hw e
  exact ⟨rfl, hnf, wf, hwfib, hpp, het, hne, hfe, hle, htag, hkey, hmode⟩

/-- C6 (amended): `createWorkInProgress` does copy `sibling`, `index` and
`ref` from the previous node into the paired node (values the parent's
reconciliation step will overwrite); the parent link (`return`) is the one
parent-relative field it does not touch (null on a fresh node, unchanged on
a reused node). -/
theorem C6_parent_fields {h : Heap} (hwf : h.WF) {c : Nat} {p : JSValue}
    {current : Fiber} (hc : h.fibers c = some current)
    {w : Nat} {H : Heap} (e : createWorkInProgress h c p = some (w, H)) :
    ∃ wf, H.fibers w = some wf ∧
      wf.sibling = current.sibling ∧ wf.index = current.index ∧
      wf.ref = current.ref ∧
      (current.alternate = none → wf.ret = none) ∧
      (∀ w0 wip, current.alternate = some w0 → h.fibers w0 = some wip →
        wf.ret = wip.ret) := by
  cases halt : current.alternate with
  | none =>
    obtain ⟨-, -, -, -, wf, hwfib, -, -, -, -, -, -, hsib, hidx, href, -, -,
      -, -, -, -, -, -, -, -, -, hret, -, -, -⟩ := fresh_spec hwf hc halt e
    exact ⟨wf, hwfib, hsib, hidx, href, fun _ => hret,
      fun w0 wip halt2 _ => Option.noConfusion halt2⟩
  | some w0 =>
    cases hww : h.fibers w0 with
    | none =>
      rw [createWorkInProgress_reuse_dangling hc halt hww] at e
      exact Option.noConfusion e
    | some wip =>
      obtain ⟨rfl, -, -, wf, hwfib, -, -, -, -, -, -, hsib, hidx, href, -, -,
        -, -, -, -, -, -, -, -, -, hret, -, -, -⟩ := reuse_spec hwf hc halt hww e
      refine ⟨wf, hwfib, hsib, hidx, href,
        fun hnone => Option.noConfusion hnone,
        fun w0' wip' halt2 hw2 => ?_⟩
      obtain rfl := Option.some.inj halt2
      obtain rfl := Option.some.inj (hww.symm.trans hw2)
      exact hret

/-- C3 (amended): `resetWorkInProgress` restores the node to the state
`createWorkInProgress` would have produced except that the effect tag is
masked down to any `Placement` bit rather than fully cleared; the effect
list is emptied; `pendingProps`, `index`, `key`, `ref` and the parent link
are untouched; with no alternate the node resets to first-generation
defaults (null child/props/state/queue/dependencies, child deadline
`NoWork`, own deadline set to the requested one); with an alternate the
committed fields are re-copied from it. -/
theorem C3_reset_restores {h : Heap} {w rt : Nat} {wip0 : Fiber}
    (hw : h.fibers w = some wip0) {H : Heap}
    (e : resetWorkInProgress h w rt = some H) :
    ∃ wf, H.fibers w = some wf ∧
      wf.effectTag = wip0.effectTag &&& Placement ∧
      wf.nextEffect = none ∧ wf.firstEffect = none ∧ wf.lastEffect = none ∧
      wf.pendingProps = wip0.pendingProps ∧ wf.index = wip0.index ∧
      wf.key = wip0.key ∧ wf.ref = wip0.ref ∧ wf.ret = wip0.ret ∧
      wf.tag = wip0.tag ∧ wf.mode = wip0.mode ∧
      wf.alternate = wip0.alternate ∧
      (wip0.alternate = none →
        wf.child = none ∧ wf.memoizedProps = JSValue.jsNull ∧
        wf.memoizedState = JSValue.jsNull ∧ wf.updateQueue = JSValue.jsNull ∧
        wf.dependencies = none ∧ wf.childExpirationTime = NoWork ∧
        wf.expirationTime = rt) ∧
      (∀ a current, wip0.alternate = some a → a ≠ w →
        h.fibers a = some current →
        wf.child = current.child ∧ wf.memoizedProps = current.memoizedProps ∧
        wf.memoizedState = current.memoizedState ∧
        wf.updateQueue = current.updateQueue ∧
        wf.childExpirationTime = current.childExpirationTime ∧
        wf.expirationTime = current.expirationTime) := by
  unfold resetWorkInProgress at e
  rw [hw] at e
  dsimp only at e
  split at e
  · rename_i heq
    obtain rfl := Option.some.inj e
    refine ⟨_, setFiber_self _ _ _, rfl, rfl, rfl, rfl, rfl, rfl, rfl, rfl,
      rfl, rfl, rfl, rfl,
      fun _ => ⟨rfl, rfl, rfl, rfl, rfl, rfl, rfl⟩,
      fun a current halteq _ _ => ?_⟩
    rw [heq] at halteq
    exact Option.noConfusion halteq
  · rename_i cId heq
    split at e
    · exact Option.noConfusion e
    · rename_i current heq2
      split at e
      · exact Option.noConfusion e
      · rename_i nd heq3
        obtain rfl := Option.some.inj e
        refine ⟨_, setFiber_self _ _ _, rfl, rfl, rfl, rfl, rfl, rfl, rfl,
          rfl, rfl, rfl, rfl, rfl,
          fun hnone => Option.noConfusion (heq.symm.trans hnone),
          fun a current' halteq hanew hfa => ?_⟩
        obtain rfl := Option.some.inj (heq.symm.trans halteq)
        have hcur : h.fibers cId = some current :=
          (setFiber_ne _ _ hanew).symm.trans heq2
        obtain rfl := Option.some.inj (hcur.symm.trans hfa)
        exact ⟨rfl, rfl, rfl, rfl, rfl, rfl⟩

set_option maxRecDepth 16384 in
/-- C7: invalid element types.  In a DEV build, classifying a description
whose definition is `undefined`, `null` or an empty object fails with
`InvalidElementType`; the diagnostic names the offending value, adds the
missing-default-export hint exactly for `undefined` and the empty object,
and names the nearest enclosing composite owner (here one named "App") when
one is available. -/
theorem C7_invalid_element_type (key : Option String) (props : JSValue)
    (mode exp : Nat) (owner : Fiber)
    (hown : getComponentName owner.type = some "App") :
    createFiberFromTypeAndProps true JSValue.undef key props (some owner)
        mode exp =
      Except.error (ReactError.invalidElementType
        "Element type is invalid: expected a string (for built-in components) or a class/function (for composite components) but got: undefined. You likely forgot to export your component from the file it\x27s defined in, or you might have mixed up default and named imports.\n\nCheck the render method of `App`.") ∧
    createFiberFromTypeAndProps true JSValue.jsNull key props (some owner)
        mode exp =
      Except.error (ReactError.invalidElementType
        "Element type is invalid: expected a string (for built-in components) or a class/function (for composite components) but got: null.\n\nCheck the render method of `App`.") ∧
    createFiberFromTypeAndProps true (JSValue.obj none 0 JSValue.undef) key
        props (some owner) mode exp =
      Except.error (ReactError.invalidElementType
        "Element type is invalid: expected a string (for built-in components) or a class/function (for composite components) but got: object. You likely forgot to export your component from the file it\x27s defined in, or you might have mixed up default and named imports.\n\nCheck the render method of `App`.") ∧
    createFiberFromTypeAndProps true JSValue.undef key props none mode exp =
      Except.error (ReactError.invalidElementType
        "Element type is invalid: expected a string (for built-in components) or a class/function (for composite components) but got: undefined. You likely forgot to export your component from the file it\x27s defined in, or you might have mixed up default and named imports.") := by
  refine ⟨?_, ?_, ?_, ?_⟩ <;>
    simp only [createFiberFromTypeAndProps, invalidTypeInfo,
      invalidElementTypeMessage, typeDescriptionArg, jsTypeof,
      isEmptyObjectLike, hown] <;>
    rfl

/-- C8: classifier decision policy.  A plain string tag is classified as a
host component; a function whose prototype carries the `isReactComponent`
marker is classified as a class component; any other function is classified
as indeterminate. -/
theorem C8_classifier_policy (dev : Bool) (key : Option String)
    (props : JSValue) (owner : Option Fiber) (mode exp : Nat) :
    (∀ s : String, ∃ f,
      createFiberFromTypeAndProps dev (JSValue.str s) key props owner mode
        exp = Except.ok f ∧ f.tag = WorkTag.hostComponent) ∧
    (∀ (name : Option String) (hasDP : Bool), ∃ f,
      createFiberFromTypeAndProps dev (JSValue.fnVal true name hasDP) key
        props owner mode exp = Except.ok f ∧
      f.tag = WorkTag.classComponent) ∧
    (∀ (name : Option String) (hasDP : Bool), ∃ f,
      createFiberFromTypeAndProps dev (JSValue.fnVal false name hasDP) key
        props owner mode exp = Except.ok f ∧
      f.tag = WorkTag.indeterminateComponent) :=
  ⟨fun _ => ⟨_, rfl, rfl⟩, fun _ _ => ⟨_, rfl, rfl⟩, fun _ _ => ⟨_, rfl, rfl⟩⟩

/-- C9: fragment construction.  Classifying the fragment built-in symbol
dispatches to the fragment constructor, which takes the `children` field of
the configuration object directly: the resulting fiber has the `Fragment`
tag and its `pendingProps` is exactly that children value, not the whole
configuration object. -/
theorem C9_fragment_children (dev : Bool) (key : Option String)
    (t : Option ReactSymbol) (k : Nat) (ch : JSValue) (owner : Option Fiber)
    (mode exp : Nat) :
    ∃ f, createFiberFromTypeAndProps dev (JSValue.symbol ReactSymbol.fragment)
        key (JSValue.obj t k ch) owner mode exp = Except.ok f ∧
      f.tag = WorkTag.fragment ∧ f.pendingProps = ch ∧ f.key = key ∧
      f.expirationTime = exp :=
  ⟨_, rfl, rfl, rfl, rfl, rfl⟩

/-- C10: `createHostRootFiber` maps the root tag to the mode bits
deterministically (`ConcurrentRoot` to `ConcurrentMode | BlockingMode |
StrictMode`, `BlockingRoot` to `BlockingMode | StrictMode`, anything else to
`NoMode`) and always returns a `HostRoot` fiber with null `pendingProps` and
null `key`. -/
theorem C10_host_root_fiber (t : Nat) :
    (createHostRootFiber t).tag = WorkTag.hostRoot ∧
    (createHostRootFiber t).pendingProps = JSValue.jsNull ∧
    (createHostRootFiber t).key = none ∧
    (createHostRootFiber t).mode =
      (if t = ConcurrentRoot then ConcurrentMode ||| BlockingMode ||| StrictMode
       else if t = BlockingRoot then BlockingMode ||| StrictMode
       else NoMode) :=
  ⟨rfl, rfl, rfl, rfl⟩

/-! Concrete example heaps used to exercise the theorems. -/

/-- A committed host-component fiber with no alternate. -/
def exFiber : Fiber :=
  mkFiberNode WorkTag.hostComponent (JSValue.str "old") none NoMode

/-- A one-fiber heap: `exFiber` lives at id 0. -/
def exHeap : Heap :=
  { fibers := hupd (fun _ => none) 0 exFiber
    nextFiber := 1
    deps := fun _ => none
    nextDeps := 0 }

theorem exHeap_wf : exHeap.WF := by
  constructor
  · intro i hi
    have hi1 : 1 ≤ i := hi
    have h0 : i ≠ 0 := by omega
    simp [exHeap, hupd, h0]
  · intro i _
    rfl

/-- The heap after pairing `exHeap`'s fiber 0 (fresh allocation at id 1). -/
def exH1 : Heap :=
  ((createWorkInProgress exHeap 0 (JSValue.str "a")).getD (0, exHeap)).2

/-- A committed fiber already paired with the fiber at id 1; its `sibling`
and `index` differ from its alternate's. -/
def exCurrent2 : Fiber :=
  { mkFiberNode WorkTag.hostComponent (JSValue.str "old") none NoMode with
    alternate := some 1
    sibling := some 7
    index := 4 }

/-- A stale work-in-progress fiber paired with the fiber at id 0, carrying
leftover pass-scoped state (a non-empty effect tag and effect pointer). -/
def exWip2 : Fiber :=
  { mkFiberNode WorkTag.hostComponent (JSValue.str "mid") none NoMode with
    alternate := some 0
    effectTag := 4
    nextEffect := some 0 }

/-- A two-fiber heap holding the pairing `exCurrent2` (id 0) and `exWip2`
(id 1). -/
def exHeap2 : Heap :=
  { fibers := hupd (hupd (fun _ => none) 0 exCurrent2) 1 exWip2
    nextFiber := 2
    deps := fun _ => none
    nextDeps := 0 }

theorem exHeap2_wf : exHeap2.WF := by
  constructor
  · intro i hi
    have hi2 : 2 ≤ i := hi
    have h0 : i ≠ 0 := by omega
    have h1 : i ≠ 1 := by omega
    simp [exHeap2, hupd, h0, h1]
  · intro i _
    rfl

/-- The heap after re-pairing `exHeap2`'s fiber 0 (reuse of id 1). -/
def exH2 : Heap :=
  ((createWorkInProgress exHeap2 0 (JSValue.str "new")).getD (0, exHeap2)).2

/-- The heap after resetting `exHeap2`'s fiber 1 for a second pass. -/
def exH3 : Heap := (resetWorkInProgress exHeap2 1 5).getD exHeap2

theorem C1_witness :
    exHeap.WF ∧
    createWorkInProgress exHeap 0 (JSValue.str "a") = some (1, exH1) ∧
    Option.map (fun r => (r.1, r.2.nextFiber))
        (createWorkInProgress exH1 0 (JSValue.str "b")) =
      some (1, exH1.nextFiber) :=
  ⟨exHeap_wf, rfl,
    C1_pairing_idempotent (p := JSValue.str "a") (q := JSValue.str "b")
      exHeap_wf rfl⟩

theorem C2_witness :
    exHeap.WF ∧ exHeap.fibers 0 = some exFiber ∧
    (∀ a, exFiber.alternate = some a →
      ∃ af, exHeap.fibers a = some af ∧ af.alternate = some 0) ∧
    createWorkInProgress exHeap 0 (JSValue.str "a") = some (1, exH1) ∧
    ((exH1.fibers 0).bind Fiber.alternate = some 1 ∧
     (exH1.fibers 1).bind Fiber.alternate = some 0) :=
  ⟨exHeap_wf, rfl, fun _ ha => Option.noConfusion ha, rfl,
    C2_pairing_symmetry exHeap_wf
      (show exHeap.fibers 0 = some exFiber from rfl)
      (fun _ ha => Option.noConfusion ha)
      (show createWorkInProgress exHeap 0 (JSValue.str "a") = some (1, exH1)
        from rfl)⟩

theorem C4_witness :
    exHeap.WF ∧ exHeap.fibers 0 = some exFiber ∧
    createWorkInProgress exHeap 0 (JSValue.str "a") = some (1, exH1) ∧
    (∃ wf, exH1.fibers 1 = some wf ∧
      wf.childExpirationTime = exFiber.childExpirationTime ∧
      wf.expirationTime = exFiber.expirationTime ∧
      wf.child = exFiber.child ∧
      wf.memoizedProps = exFiber.memoizedProps ∧
      wf.memoizedState = exFiber.memoizedState ∧
      wf.updateQueue = exFiber.updateQueue ∧
      (exFiber.dependencies = none → wf.dependencies = none) ∧
      (∀ dId, exFiber.dependencies = some dId →
        wf.dependencies = some exHeap.nextDeps ∧ exHeap.nextDeps ≠ dId ∧
        exH1.deps exHeap.nextDeps = exH1.deps dId ∧
        (∀ d2, (exH1.setDeps exHeap.nextDeps d2).deps dId =
          exH1.deps dId))) :=
  ⟨exHeap_wf, rfl, rfl,
    C4_copy_forward exHeap_wf
      (show exHeap.fibers 0 = some exFiber from rfl)
      (show createWorkInProgress exHeap 0 (JSValue.str "a") = some (1, exH1)
        from rfl)⟩

theorem C5_witness :
    exHeap2.WF ∧ exHeap2.fibers 0 = some exCurrent2 ∧
    exCurrent2.alternate = some 1 ∧ exHeap2.fibers 1 = some exWip2 ∧
    createWorkInProgress exHeap2 0 (JSValue.str "new") = some (1, exH2) ∧
    ((1 : Nat) = 1 ∧ exH2.nextFiber = exHeap2.nextFiber ∧
      ∃ wf, exH2.fibers 1 = some wf ∧
        wf.pendingProps = JSValue.str "new" ∧ wf.effectTag = NoEffect ∧
        wf.nextEffect = none ∧ wf.firstEffect = none ∧
        wf.lastEffect = none ∧ wf.tag = exWip2.tag ∧ wf.key = exWip2.key ∧
        wf.mode = exWip2.mode) :=
  ⟨exHeap2_wf, rfl, rfl, rfl, rfl,
    C5_reuse_in_place exHeap2_wf
      (show exHeap2.fibers 0 = some exCurrent2 from rfl)
      (show exCurrent2.alternate = some 1 from rfl)
      (show exHeap2.fibers 1 = some exWip2 from rfl)
      (show createWorkInProgress exHeap2 0 (JSValue.str "new") =
        some (1, exH2) from rfl)⟩

theorem C6_witness :
    exHeap2.WF ∧ exHeap2.fibers 0 = some exCurrent2 ∧
    createWorkInProgress exHeap2 0 (JSValue.str "new") = some (1, exH2) ∧
    (∃ wf, exH2.fibers 1 = some wf ∧
      wf.sibling = exCurrent2.sibling ∧ wf.index = exCurrent2.index ∧
      wf.ref = exCurrent2.ref ∧
      (exCurrent2.alternate = none → wf.ret = none) ∧
      (∀ w0 wip, exCurrent2.alternate = some w0 →
        exHeap2.fibers w0 = some wip → wf.ret = wip.ret)) :=
  ⟨exHeap2_wf, rfl, rfl,
    C6_parent_fields exHeap2_wf
      (show exHeap2.fibers 0 = some exCurrent2 from rfl)
      (show createWorkInProgress exHeap2 0 (JSValue.str "new") =
        some (1, exH2) from rfl)⟩

theorem C3_witness :
    exHeap2.fibers 1 = some exWip2 ∧
    resetWorkInProgress exHeap2 1 5 = some exH3 ∧
    (∃ wf, exH3.fibers 1 = some wf ∧
      wf.effectTag = exWip2.effectTag &&& Placement ∧
      wf.nextEffect = none ∧ wf.firstEffect = none ∧ wf.lastEffect = none ∧
      wf.pendingProps = exWip2.pendingProps ∧ wf.index = exWip2.index ∧
      wf.key = exWip2.key ∧ wf.ref = exWip2.ref ∧ wf.ret = exWip2.ret ∧
      wf.tag = exWip2.tag ∧ wf.mode = exWip2.mode ∧
      wf.alternate = exWip2.alternate ∧
      (exWip2.alternate = none →
        wf.child = none ∧ wf.memoizedProps = JSValue.jsNull ∧
        wf.memoizedState = JSValue.jsNull ∧ wf.updateQueue = JSValue.jsNull ∧
        wf.dependencies = none ∧ wf.childExpirationTime = NoWork ∧
        wf.expirationTime = 5) ∧
      (∀ a current, exWip2.alternate = some a → a ≠ 1 →
        exHeap2.fibers a = some current →
        wf.child = current.child ∧ wf.memoizedProps = current.memoizedProps ∧
        wf.memoizedState = current.memoizedState ∧
        wf.updateQueue = current.updateQueue ∧
        wf.childExpirationTime = current.childExpirationTime ∧
        wf.expirationTime = current.expirationTime)) :=
  ⟨rfl, rfl, C3_reset_restores rfl rfl⟩

/-- An owner fiber whose definition is a class named "App". -/
def appOwner : Fiber :=
  { mkFiberNode WorkTag.classComponent JSValue.jsNull none NoMode with
    type := JSValue.fnVal true (some "App") false }

theorem C7_witness :
    getComponentName appOwner.type = some "App" ∧
    (createFiberFromTypeAndProps true JSValue.undef none JSValue.jsNull
        (some appOwner) 0 0 =
      Except.error (ReactError.invalidElementType
        "Element type is invalid: expected a string (for built-in components) or a class/function (for composite components) but got: undefined. You likely forgot to export your component from the file it\x27s defined in, or you might have mixed up default and named imports.\n\nCheck the render method of `App`.") ∧
    createFiberFromTypeAndProps true JSValue.jsNull none JSValue.jsNull
        (some appOwner) 0 0 =
      Except.error (ReactError.invalidElementType
        "Element type is invalid: expected a string (for built-in components) or a class/function (for composite components) but got: null.\n\nCheck the render method of `App`.") ∧
    createFiberFromTypeAndProps true (JSValue.obj none 0 JSValue.undef) none
        JSValue.jsNull (some appOwner) 0 0 =
      Except.error (ReactError.invalidElementType
        "Element type is invalid: expected a string (for built-in components) or a class/function (for composite components) but got: object. You likely forgot to export your component from the file it\x27s defined in, or you might have mixed up default and named imports.\n\nCheck the render method of `App`.") ∧
    createFiberFromTypeAndProps true JSValue.undef none JSValue.jsNull none
        0 0 =
      Except.error (ReactError.invalidElementType
        "Element type is invalid: expected a string (for built-in components) or a class/function (for composite components) but got: undefined. You likely forgot to export your component from the file it\x27s defined in, or you might have mixed up default and named imports.")) :=
  ⟨rfl, C7_invalid_element_type none JSValue.jsNull 0 0 appOwner rfl⟩

/-- A fiber carrying both the `Placement` (2) and `Update` (4) effect bits,
with no alternate. -/
def cexResetFiber : Fiber :=
  { mkFiberNode WorkTag.hostComponent JSValue.jsNull none NoMode with
    effectTag := 6 }

/-- A one-fiber heap around `cexResetFiber`. -/
def cexHeap3 : Heap :=
  { fibers := hupd (fun _ => none) 0 cexResetFiber
    nextFiber := 1
    deps := fun _ => none
    nextDeps := 0 }

theorem C3_counterexample :
    ((resetWorkInProgress cexHeap3 0 7).bind (fun H => H.fibers 0)).map
        Fiber.effectTag = some Placement ∧
    Placement ≠ NoEffect :=
  ⟨rfl, by decide⟩

theorem C6_counterexample :
    createWorkInProgress exHeap2 0 (JSValue.str "new") = some (1, exH2) ∧
    (exHeap2.fibers 1).map Fiber.sibling = some none ∧
    (exH2.fibers 1).map Fiber.sibling = some exCurrent2.sibling ∧
    exCurrent2.sibling = some 7 ∧
    (exHeap2.fibers 1).map Fiber.index = some 0 ∧
    (exH2.fibers 1).map Fiber.index = some exCurrent2.index ∧
    exCurrent2.index = 4 :=
  ⟨rfl, rfl, rfl, rfl, rfl, rfl, rfl⟩

end ReactFiber
